import Mathlib

/-!
Verification development for the kids-book-generator repository.

The file embeds, as executable Lean definitions, the parts of the source
that the checked properties speak about: the `generate_with_retry`
wrapper and the `APIQueue` from the API integration layer, the frontend
service layer (batch service, Canva service, generation service with its
metadata conversions and status types), and — where the orchestration
engine itself is not part of the source tree — a model of the book
pipeline and batch aggregation built from the design document.  All
definitions come first; the theorems about them follow.
-/

namespace KidsBook

/-! ### Retry wrapper (`generate_with_retry`, API integration guide) -/

/-- Outcome of one invocation of the provider call wrapped by
`generate_with_retry`: a successful value, a `RateLimitError`, or an
`APIError` carrying a message. -/
inductive CallOutcome where
  | success (v : Nat)
  | rateLimitError
  | apiError (msg : String)
  deriving DecidableEq, Repr

/-- `max_retries` local of `generate_with_retry`. -/
def max_retries : Nat := 3

/-- `retry_delay` local of `generate_with_retry`, in seconds. -/
def retry_delay : Nat := 1

/-- One pass of the `for attempt in range(max_retries)` loop of
`generate_with_retry`, entered at attempt number `attempt` with
`remaining` loop iterations left.  The call under test is `func`,
indexed by attempt number.  Returns the outcome the wrapper returns or
re-raises, the total number of invocations of `func`, and the list of
back-off sleeps performed (seconds, in order).  `none` models the loop
finishing with no `return` and no `raise`, which is only reachable when
the loop body never runs at all. -/
def retryAux (func : Nat → CallOutcome) (attempt : Nat) :
    Nat → Option (CallOutcome × Nat × List Nat)
  | 0 => none
  | remaining + 1 =>
    match func attempt with
    | .success v => some (.success v, attempt + 1, [])
    | .rateLimitError =>
      if remaining = 0 then
        some (.rateLimitError, attempt + 1, [])
      else
        match retryAux func (attempt + 1) remaining with
        | some (r, n, s) => some (r, n, retry_delay * 2 ^ attempt :: s)
        | none => none
    | .apiError m => some (.apiError m, attempt + 1, [])

/-- `generate_with_retry` (API integration guide): invokes `func` up to
`max_retries` times; on `RateLimitError` it sleeps
`retry_delay * 2 ^ attempt` seconds and retries, unless the attempt was
the last one, in which case it re-raises; on `APIError` it logs and
re-raises immediately. -/
def generate_with_retry (func : Nat → CallOutcome) :
    Option (CallOutcome × Nat × List Nat) :=
  retryAux func 0 max_retries

/-- A call that raises `RateLimitError` on its first `k` attempts and
then succeeds with value `v` — the call shape used to state the retry
contract. -/
def failsThenSucceeds (k v : Nat) : Nat → CallOutcome :=
  fun attempt => if attempt < k then .rateLimitError else .success v

/-- The back-off wait (the argument of `asyncio.sleep` in the retry
loop) the code performs after rate-limited attempt number `attempt`. -/
def retrySleep (attempt : Nat) : Nat := retry_delay * 2 ^ attempt

/-! ### `APIQueue` (API integration guide, async queue pattern) -/

/-- `APIQueue._process_queue`: takes queued requests one at a time in
FIFO order, runs each, and sleeps `60 / rate_limit` seconds after each
request before taking the next.  `process_queue rate_limit reqs t`
returns each request paired with the time (in seconds from `t`) at which
it is started.  Requests are never run concurrently: the next request is
only taken after the previous one finished and the rate-limiting sleep
elapsed. -/
def process_queue (rate_limit : Nat) : List α → Nat → List (α × Nat)
  | [], _ => []
  | x :: xs, t => (x, t) :: process_queue rate_limit xs (t + 60 / rate_limit)

/-- The start times produced by running `n` queued requests through
`APIQueue._process_queue` from time `0`. -/
def startTimes (rate_limit n : Nat) : List Nat :=
  (process_queue rate_limit (List.range n) 0).map Prod.snd

/-- How many of `n` requests enqueued together the `APIQueue` starts
immediately (at time `0`). -/
def immediateGrants (rate_limit n : Nat) : Nat :=
  (startTimes rate_limit n).countP (fun t => t == 0)

/-! ### Frontend service layer: endpoints and authenticated requests -/

/-- `API_BASE_URL` (frontend `config/api.ts`) with no `VITE_API_URL`
override. -/
def API_BASE_URL : String := "http://localhost:8000/api/v1"

/-- `BATCH_ENDPOINTS.LIST` (frontend `config/api.ts`). -/
def BATCH_LIST : String := API_BASE_URL ++ "/batch"

/-- `BATCH_ENDPOINTS.DETAIL` (frontend `config/api.ts`). -/
def BATCH_DETAIL (id : String) : String := API_BASE_URL ++ "/batch/" ++ id

/-- `BATCH_ENDPOINTS.CREATE` (frontend `config/api.ts`). -/
def BATCH_CREATE : String := API_BASE_URL ++ "/batch"

/-- `BATCH_ENDPOINTS.STATUS` (frontend `config/api.ts`). -/
def BATCH_STATUS (id : String) : String :=
  API_BASE_URL ++ "/batch/" ++ id ++ "/status"

/-- `CANVA_ENDPOINTS.TEMPLATES` (frontend `config/api.ts`). -/
def CANVA_TEMPLATES : String := API_BASE_URL ++ "/canva/templates"

/-- `CANVA_ENDPOINTS.PREVIEW` (frontend `config/api.ts`). -/
def CANVA_PREVIEW (designId : String) : String :=
  API_BASE_URL ++ "/canva/preview/" ++ designId

/-- `CANVA_ENDPOINTS.EXPORT` (frontend `config/api.ts`). -/
def CANVA_EXPORT (designId : String) : String :=
  API_BASE_URL ++ "/canva/export/" ++ designId

/-- An HTTP request as issued through axios by the frontend services:
method, URL and headers.  A service that throws before calling axios
produces no such value. -/
structure HttpRequest where
  method : String
  url : String
  headers : List (String × String)
  deriving DecidableEq, Repr

/-- The token-guarded request pattern shared by every operation of
`batchService` and `canvaService`: read `localStorage.getItem('token')`;
if it is absent, throw `Error('No authentication token found')` without
issuing any HTTP request; otherwise issue the request with an
`Authorization: Bearer <token>` header (plus any extra headers). -/
def authedRequest (token : Option String) (method url : String)
    (extraHeaders : List (String × String)) : Except String HttpRequest :=
  match token with
  | none => .error "No authentication token found"
  | some t =>
    .ok { method := method, url := url,
          headers := ("Authorization", "Bearer " ++ t) :: extraHeaders }

/-- `batchService.getBatchJobs`: authenticated GET of the batch list. -/
def getBatchJobs (token : Option String) : Except String HttpRequest :=
  authedRequest token "GET" BATCH_LIST []

/-- `batchService.getBatchJob`: authenticated GET of one batch job. -/
def getBatchJob (token : Option String) (id : String) :
    Except String HttpRequest :=
  authedRequest token "GET" (BATCH_DETAIL id) []

/-- `batchService.createBatchJob`: authenticated POST creating a batch
job, with an additional `Content-Type: application/json` header. -/
def createBatchJob (token : Option String) : Except String HttpRequest :=
  authedRequest token "POST" BATCH_CREATE [("Content-Type", "application/json")]

/-- `batchService.checkBatchJobStatus`: authenticated GET of a batch
job's status. -/
def checkBatchJobStatus (token : Option String) (id : String) :
    Except String HttpRequest :=
  authedRequest token "GET" (BATCH_STATUS id) []

/-- `batchService.cancelBatchJob`: authenticated DELETE of a batch
job. -/
def cancelBatchJob (token : Option String) (id : String) :
    Except String HttpRequest :=
  authedRequest token "DELETE" (BATCH_DETAIL id) []

/-- `canvaService.getTemplates`: authenticated GET of the Canva
templates. -/
def getTemplates (token : Option String) : Except String HttpRequest :=
  authedRequest token "GET" CANVA_TEMPLATES []

/-- `canvaService.getDesignPreview`: authenticated GET of a design
preview. -/
def getDesignPreview (token : Option String) (designId : String) :
    Except String HttpRequest :=
  authedRequest token "GET" (CANVA_PREVIEW designId) []

/-- `canvaService.exportDesign`: authenticated POST exporting a
design. -/
def exportDesign (token : Option String) (designId : String) :
    Except String HttpRequest :=
  authedRequest token "POST" (CANVA_EXPORT designId) []

/-! ### Generation service: status values and metadata conversions -/

/-- `GenerationStatus` (frontend `generationService` and
`GenerationProgressTracker`): the five string-literal members of the
union type `'idle' | 'preparing' | 'generating' | 'completed' |
'failed'`. -/
inductive GenerationStatus where
  | idle
  | preparing
  | generating
  | completed
  | failed
  deriving DecidableEq, Repr

/-- The string literal of a `GenerationStatus` value exactly as written
in the source union type. -/
def GenerationStatus.toLit : GenerationStatus → String
  | .idle => "idle"
  | .preparing => "preparing"
  | .generating => "generating"
  | .completed => "completed"
  | .failed => "failed"

/-- The status union of `BatchJob` and `BatchBookResult` in the frontend
`batchService`: `'pending' | 'processing' | 'completed' | 'failed'`. -/
inductive BatchBookStatus where
  | pending
  | processing
  | completed
  | failed
  deriving DecidableEq, Repr

/-- The string literal of a `BatchBookStatus` value exactly as written
in the source union type. -/
def BatchBookStatus.toLit : BatchBookStatus → String
  | .pending => "pending"
  | .processing => "processing"
  | .completed => "completed"
  | .failed => "failed"

/-- `BookMetadata` (frontend `booksService`): `educational_focus` is the
only optional field used by the conversions. -/
structure BookMetadata where
  title : String
  author : String
  age_group : String
  book_type : String
  theme : String
  educational_focus : Option String
  trim_size : String
  page_count : Nat
  deriving DecidableEq, Repr

/-- `GenerationSettingsData` (frontend `generationService`). -/
structure GenerationSettingsData where
  storyType : String
  ageRange : String
  language : String
  theme : String
  characters : String
  illustrationStyle : String
  additionalNotes : String
  pagesCount : Nat
  deriving DecidableEq, Repr

/-- JavaScript `a || b` on an optional string: `null`/`undefined` and
the empty string are falsy and yield `b`. -/
def jsOrElse (a : Option String) (b : String) : String :=
  match a with
  | none => b
  | some s => if s = "" then b else s

/-- JavaScript `s || undefined` on a string: the empty string is falsy
and yields `undefined`. -/
def jsOrUndefined (s : String) : Option String :=
  if s = "" then none else some s

/-- `generationService.convertToBookMetadata`. -/
def convertToBookMetadata (settings : GenerationSettingsData) : BookMetadata :=
  { title := settings.theme
    author := "AI Generated"
    age_group := settings.ageRange
    book_type := if settings.storyType = "coloring" then "coloring" else "story"
    theme := settings.theme
    educational_focus := jsOrUndefined settings.additionalNotes
    trim_size := "8.5x11"
    page_count := settings.pagesCount }

/-- `generationService.convertFromBookMetadata`. -/
def convertFromBookMetadata (metadata : BookMetadata) : GenerationSettingsData :=
  { storyType := metadata.book_type
    ageRange := metadata.age_group
    language := "english"
    theme := metadata.theme
    characters := ""
    illustrationStyle := "cartoon"
    additionalNotes := jsOrElse metadata.educational_focus ""
    pagesCount := metadata.page_count }

/-! ### Book Pipeline and batch aggregation

The generation orchestration engine (book pipeline state machine, batch
coordinator, job status store) is not part of the source tree: the
frontend only declares its request/response types and calls its HTTP
endpoints.  The following definitions model it from the design document
(§3–§4.6). -/

/-- Modelled from the spec: the status of a BookJob, one of `Pending`,
`Running`, `Succeeded`, `Failed`, `Cancelled` (§3). -/
inductive JobStatus where
  | Pending
  | Running
  | Succeeded
  | Failed
  | Cancelled
  deriving DecidableEq, Repr

/-- Modelled from the spec: the outcome of one Stage Executor invocation
(§4.4): an opaque output payload, or an error carrying the last
underlying cause string. -/
inductive StageResult where
  | ok (output : String)
  | err (cause : String)
  deriving DecidableEq, Repr

/-- Modelled from the spec: a BookJob record (§3) — ordered stage names,
the `currentStageIndex` pointer, the `stageOutputs` map (stage name to
opaque payload, written as stages complete, never removed), the status
and the last terminal error. -/
structure BookJob where
  id : String
  stages : List String
  currentStageIndex : Nat
  stageOutputs : List (String × String)
  status : JobStatus
  lastError : Option String
  deriving DecidableEq, Repr

/-- The job after a successful stage execution: the stage's output is
appended to `stageOutputs` (written at most once, never removed), the
`currentStageIndex` pointer advances, the job stays `Running` and the
last error is cleared. -/
def advanceJob (job : BookJob) (name out : String) : BookJob :=
  { job with
    stageOutputs := job.stageOutputs ++ [(name, out)]
    currentStageIndex := job.currentStageIndex + 1
    status := .Running
    lastError := none }

/-- Modelled from the spec: the Book Pipeline stage loop (§4.5), absent
from the source tree.  For each stage from `currentStageIndex` on: first
check the cooperative cancellation point (`cancelAt i` says whether a
cancellation request is observed at the top of the iteration for stage
`i`); then invoke the Stage Executor (`exec i`); on success write
`stageOutputs[stage]`, advance `currentStageIndex` and continue; on
failure set `status := Failed`, record `lastError`, and stop.  When the
stages are exhausted the job is `Succeeded`.  `fuel` bounds the number
of iterations.  Returns the final job together with the list of stage
indices at which the Stage Executor was invoked. -/
def runPipeline (exec : Nat → StageResult) (cancelAt : Nat → Bool) :
    BookJob → Nat → BookJob × List Nat
  | job, 0 => (job, [])
  | job, fuel + 1 =>
    if cancelAt job.currentStageIndex then
      ({ job with status := .Cancelled }, [])
    else
      match job.stages[job.currentStageIndex]? with
      | none => ({ job with status := .Succeeded }, [])
      | some name =>
        match exec job.currentStageIndex with
        | .ok out =>
          ((runPipeline exec cancelAt (advanceJob job name out) fuel).1,
            job.currentStageIndex ::
              (runPipeline exec cancelAt (advanceJob job name out) fuel).2)
        | .err c =>
          ({ job with status := .Failed, lastError := some c },
            [job.currentStageIndex])

/-- Modelled from the spec: running a BookJob marks it `Running` and
drives the stage loop from `currentStageIndex` with enough fuel to
reach the end of the stage list. -/
def runJob (exec : Nat → StageResult) (cancelAt : Nat → Bool)
    (job : BookJob) : BookJob × List Nat :=
  runPipeline exec cancelAt { job with status := .Running }
    (job.stages.length + 1 - job.currentStageIndex)

/-- Modelled from the spec: resuming a `Failed` BookJob (§4.5) is an
explicit caller action that re-enters the stage loop at
`currentStageIndex`, reusing the prior `stageOutputs` rather than
recomputing them. -/
def resumeJob (exec : Nat → StageResult) (cancelAt : Nat → Bool)
    (job : BookJob) : BookJob × List Nat :=
  runJob exec cancelAt job

/-- The structural invariant a BookJob maintained by the pipeline
satisfies: `stageOutputs` holds exactly the names of the stages before
`currentStageIndex`, in order, and stage names are distinct (they key
the `stageOutputs` map). -/
def WellFormed (job : BookJob) : Prop :=
  job.stageOutputs.map Prod.fst = job.stages.take job.currentStageIndex ∧
    job.stages.Nodup

/-- Modelled from the spec: the response of `GetJobStatus` (§6):
status, current stage and last error. -/
structure JobStatusResponse where
  status : JobStatus
  currentStage : Nat
  lastError : Option String
  deriving DecidableEq, Repr

/-- Modelled from the spec: `GetJobStatus` reads the job record and
reports its status, current stage and last error. -/
def GetJobStatus (job : BookJob) : JobStatusResponse :=
  { status := job.status
    currentStage := job.currentStageIndex
    lastError := job.lastError }

/-- Modelled from the spec: batch-level aggregate status (§3). -/
inductive AggregateStatus where
  | Completed
  | PartiallyFailed
  | Running
  deriving DecidableEq, Repr

/-- A job status is terminal when it is `Succeeded`, `Failed` or
`Cancelled` (spec glossary). -/
def isTerminal : JobStatus → Bool
  | .Succeeded => true
  | .Failed => true
  | .Cancelled => true
  | _ => false

/-- Modelled from the spec: `aggregateStatus` (§3, §4.6), derived and
never stored — `Completed` iff all constituents are terminal and all
succeeded; `PartiallyFailed` iff all are terminal and at least one
failed; `Running` otherwise. -/
def aggregateStatus (statuses : List JobStatus) : AggregateStatus :=
  if statuses.all isTerminal then
    if statuses.all (· == JobStatus.Succeeded) then .Completed
    else if statuses.any (· == JobStatus.Failed) then .PartiallyFailed
    else .Running
  else .Running

/-- Modelled from the spec: a BatchJob groups BookJobs; its aggregate
status is never a stored field. -/
structure BatchJob where
  id : String
  bookJobs : List BookJob
  deriving DecidableEq, Repr

/-- Modelled from the spec: `GetBatchStatus` (§6) recomputes the
aggregate status from the constituent BookJob statuses on every read
and returns it with the per-book statuses. -/
def GetBatchStatus (batch : BatchJob) : AggregateStatus × List JobStatus :=
  (aggregateStatus (batch.bookJobs.map BookJob.status),
    batch.bookJobs.map BookJob.status)

/-! ### Concrete records used by the witnesses -/

/-- A fresh four-stage book job. -/
def sampleJob : BookJob :=
  { id := "book-1"
    stages := ["text", "images", "layout", "export"]
    currentStageIndex := 0
    stageOutputs := []
    status := .Pending
    lastError := none }

/-- A book job that failed at its third stage with the first two stage
outputs persisted. -/
def failedJob : BookJob :=
  { id := "book-2"
    stages := ["text", "images", "layout", "export"]
    currentStageIndex := 2
    stageOutputs := [("text", "t-out"), ("images", "i-out")]
    status := .Failed
    lastError := some "export quota exceeded" }

/-- A two-book batch: one job succeeded, one failed. -/
def sampleBatch : BatchJob :=
  { id := "batch-1"
    bookJobs :=
      [ { sampleJob with status := .Succeeded },
        { failedJob with id := "book-3" } ] }

/-! ## Theorems -/

/-- Auxiliary: the sleeps recorded by `retryAux` from attempt number
`attempt` on are exactly the uncapped exponential delays at consecutive
attempt numbers starting at `attempt`. -/
theorem retryAux_sleeps (func : Nat → CallOutcome) :
    ∀ (remaining attempt : Nat) (r : CallOutcome) (n : Nat) (s : List Nat),
      retryAux func attempt remaining = some (r, n, s) →
      s = (List.range' attempt s.length).map fun i => retry_delay * 2 ^ i := by
  intro remaining
  induction remaining with
  | zero => intro attempt r n s h; simp [retryAux] at h
  | succ rem ih =>
    intro attempt r n s h
    rw [retryAux] at h
    cases hf : func attempt with
    | success v =>
      rw [hf] at h
      simp only [Option.some.injEq, Prod.mk.injEq] at h
      obtain ⟨h1, h2, h3⟩ := h
      subst h3
      simp
    | rateLimitError =>
      rw [hf] at h
      by_cases hrem : rem = 0
      · subst hrem
        rw [if_pos rfl] at h
        simp only [Option.some.injEq, Prod.mk.injEq] at h
        obtain ⟨h1, h2, h3⟩ := h
        subst h3
        simp
      · rw [if_neg hrem] at h
        cases hrec : retryAux func (attempt + 1) rem with
        | none => rw [hrec] at h; exact absurd h (by simp)
        | some p =>
          obtain ⟨r2, n2, s2⟩ := p
          rw [hrec] at h
          simp only [Option.some.injEq, Prod.mk.injEq] at h
          obtain ⟨h1, h2, h3⟩ := h
          subst h3
          have hs2 := ih (attempt + 1) r2 n2 s2 hrec
          rw [List.length_cons, List.range'_succ, List.map_cons]
          exact congrArg (List.cons _) hs2
    | apiError m =>
      rw [hf] at h
      simp only [Option.some.injEq, Prod.mk.injEq] at h
      obtain ⟨h1, h2, h3⟩ := h
      subst h3
      simp

/-- Claim C3: for the retry wrapper `generate_with_retry`, a call that
fails with the transient `RateLimitError` exactly `k < max_retries`
times and then succeeds makes the wrapper return the success with
`k + 1` invocations of the call; a call that fails transiently
`max_retries` or more times makes the wrapper return (re-raise) the
classified error after exactly `max_retries` invocations — it is never
silently swallowed. -/
theorem generate_with_retry_contract (k v : Nat) :
    (k < max_retries →
      generate_with_retry (failsThenSucceeds k v) =
        some (.success v, k + 1,
          (List.range k).map fun a => retry_delay * 2 ^ a)) ∧
    (max_retries ≤ k →
      generate_with_retry (failsThenSucceeds k v) =
        some (.rateLimitError, max_retries,
          [retry_delay * 2 ^ 0, retry_delay * 2 ^ 1])) := by
  constructor
  · intro hk
    have hk3 : k < 3 := hk
    interval_cases k
    · rfl
    · rfl
    · rfl
  · intro hk
    have h0 : 0 < k := by have : (3 : Nat) ≤ k := hk; omega
    have h1 : 1 < k := by have : (3 : Nat) ≤ k := hk; omega
    have h2 : 2 < k := by have : (3 : Nat) ≤ k := hk; omega
    simp [generate_with_retry, max_retries, retryAux, failsThenSucceeds,
      h0, h1, h2, retry_delay]

/-- Witness for C3 at `k = 1` and `k = 5` with `v = 7`. -/
theorem generate_with_retry_contract_witness :
    generate_with_retry (failsThenSucceeds 1 7) =
      some (.success 7, 2, (List.range 1).map fun a => retry_delay * 2 ^ a) ∧
    generate_with_retry (failsThenSucceeds 5 7) =
      some (.rateLimitError, max_retries,
        [retry_delay * 2 ^ 0, retry_delay * 2 ^ 1]) :=
  ⟨(generate_with_retry_contract 1 7).1 (by decide),
   (generate_with_retry_contract 5 7).2 (by decide)⟩

/-- Claim C4 counterexample: the claim says the wait after retryable
attempt `attempt` equals `min(maxBackoff, base * 2 ^ attempt)` plus a
jitter drawn from the interval `[0, backoff / 2]`, the jitter term never
zero-width by construction.  The code's wait is the deterministic
`retry_delay * 2 ^ attempt` with no cap and no jitter: there is no
choice of `maxBackoff` and `base` for which every jitter value of the
claimed interval is realizable — already at attempt `1` with jitter
values `0` and `1` the single deterministic wait cannot match. -/
theorem retry_backoff_claim_false :
    ¬ ∃ (maxBackoff base : Nat),
      ∀ attempt : Nat, attempt < max_retries - 1 →
        ∀ j : Nat, j ≤ min maxBackoff (base * 2 ^ attempt) / 2 →
          retrySleep attempt = min maxBackoff (base * 2 ^ attempt) + j := by
  rintro ⟨m, b, h⟩
  have h1 := h 1 (by simp [max_retries]) 0 (Nat.zero_le _)
  simp only [retrySleep, retry_delay, pow_one, one_mul, Nat.add_zero] at h1
  have hj := h 1 (by simp [max_retries]) 1 (by rw [pow_one, ← h1])
  simp only [retrySleep, retry_delay, pow_one, one_mul] at hj
  omega

/-- Claim C4 amended: for every retryable failure the wait before the
next retry equals `retry_delay * 2 ^ attempt` (pure exponential
back-off, one-second base), with no maximum-backoff cap and no jitter
term: the sleeps recorded by any run of `generate_with_retry` are
exactly `retry_delay * 2 ^ a` for consecutive attempt numbers `a`
starting at zero. -/
theorem retry_backoff_uncapped_no_jitter (func : Nat → CallOutcome)
    (r : CallOutcome) (n : Nat) (s : List Nat)
    (h : generate_with_retry func = some (r, n, s)) :
    s = (List.range s.length).map fun attempt => retry_delay * 2 ^ attempt := by
  have hs := retryAux_sleeps func max_retries 0 r n s h
  rw [List.range_eq_range']
  exact hs

/-- Witness for the amended C4 on an always-rate-limited run: the two
recorded sleeps are 1 and 2 seconds. -/
theorem retry_backoff_uncapped_no_jitter_witness :
    generate_with_retry (failsThenSucceeds 5 0) =
      some (.rateLimitError, 3, [1, 2]) ∧
    ([1, 2] : List Nat) =
      (List.range ([1, 2] : List Nat).length).map
        fun attempt => retry_delay * 2 ^ attempt := by
  have h : generate_with_retry (failsThenSucceeds 5 0) =
      some (.rateLimitError, 3, [1, 2]) := by decide
  exact ⟨h, retry_backoff_uncapped_no_jitter (failsThenSucceeds 5 0)
    .rateLimitError 3 [1, 2] h⟩

/-- Auxiliary: the start times of the queued requests are an arithmetic
progression spaced by the rate-limiting sleep — the queue runs strictly
one request at a time. -/
theorem process_queue_start_times (rate_limit : Nat) :
    ∀ (xs : List Nat) (t : Nat),
      (process_queue rate_limit xs t).map Prod.snd =
        (List.range xs.length).map fun i => t + i * (60 / rate_limit) := by
  intro xs
  induction xs with
  | nil => intro t; simp [process_queue]
  | cons x xs ih =>
    intro t
    simp only [process_queue, List.map_cons, List.length_cons,
      List.range_succ_eq_map, List.map_map]
    rw [ih (t + 60 / rate_limit)]
    refine congrArg₂ List.cons (by omega) ?_
    apply List.map_congr_left
    intro i _
    simp only [Function.comp_apply, Nat.succ_eq_add_one]
    ring

/-- Claim C8 counterexample: reading the `APIQueue` with
`rate_limit = 2` as a bucket of capacity 2, the claim predicts that 3
requests issued together yield exactly 2 immediate grants; the code
starts exactly 1 request immediately — the queue is strictly
sequential, with no concurrency slots and no `acquire`/`release`. -/
theorem apiqueue_claim_false :
    immediateGrants 2 3 = 1 ∧ immediateGrants 2 3 ≠ 2 := by decide

/-- Claim C8 amended: the `APIQueue` has no concurrency slots and no
`acquire`/`release`; it starts queued requests strictly sequentially in
FIFO order, request `i` at time `i * (60 / rate_limit)` seconds, so
that for any positive `rate_limit ≤ 60` (a sleep of at least one
second) exactly one of the `n ≥ 1` simultaneously queued requests
starts immediately and every later one waits for all requests queued
before it. -/
theorem apiqueue_sequential (rate_limit n : Nat) (hr0 : 0 < rate_limit)
    (hr : rate_limit ≤ 60) (hn : 0 < n) :
    startTimes rate_limit n =
      (List.range n).map (fun i => i * (60 / rate_limit)) ∧
    immediateGrants rate_limit n = 1 := by
  have hd : 0 < 60 / rate_limit := Nat.div_pos hr hr0
  have hst : startTimes rate_limit n =
      (List.range n).map fun i => i * (60 / rate_limit) := by
    unfold startTimes
    rw [process_queue_start_times]
    simp
  refine ⟨hst, ?_⟩
  unfold immediateGrants
  rw [hst, List.countP_map]
  obtain ⟨m, rfl⟩ : ∃ m, n = m + 1 := ⟨n - 1, by omega⟩
  rw [List.range_succ_eq_map, List.countP_cons, List.countP_map]
  have hz : List.countP
      (((fun t => t == 0) ∘ fun i => i * (60 / rate_limit)) ∘ Nat.succ)
      (List.range m) = 0 := by
    apply List.countP_eq_zero.mpr
    intro a _
    simp only [Function.comp_apply, beq_iff_eq]
    have hpos : 0 < Nat.succ a * (60 / rate_limit) := by positivity
    omega
  rw [hz]
  simp

/-- Witness for the amended C8 at `rate_limit = 60` with two queued
requests. -/
theorem apiqueue_sequential_witness :
    startTimes 60 2 = [0, 1] ∧ immediateGrants 60 2 = 1 := by
  have h := apiqueue_sequential 60 2 (by decide) (by decide) (by decide)
  refine ⟨?_, h.2⟩
  rw [h.1]
  decide

/-- Claim C9: every operation of the batch service and the Canva
service first reads the stored token; with no token it throws
`No authentication token found` and issues no HTTP request (an `error`
result carries no `HttpRequest`); with token `t` it issues its request
carrying the header `Authorization: Bearer t`. -/
theorem services_auth_guard (id designId t : String) :
    getBatchJobs none = .error "No authentication token found" ∧
    getBatchJob none id = .error "No authentication token found" ∧
    createBatchJob none = .error "No authentication token found" ∧
    checkBatchJobStatus none id = .error "No authentication token found" ∧
    cancelBatchJob none id = .error "No authentication token found" ∧
    getTemplates none = .error "No authentication token found" ∧
    getDesignPreview none designId = .error "No authentication token found" ∧
    exportDesign none designId = .error "No authentication token found" ∧
    (∃ req, getBatchJobs (some t) = .ok req ∧
      ("Authorization", "Bearer " ++ t) ∈ req.headers) ∧
    (∃ req, getBatchJob (some t) id = .ok req ∧
      ("Authorization", "Bearer " ++ t) ∈ req.headers) ∧
    (∃ req, createBatchJob (some t) = .ok req ∧
      ("Authorization", "Bearer " ++ t) ∈ req.headers) ∧
    (∃ req, checkBatchJobStatus (some t) id = .ok req ∧
      ("Authorization", "Bearer " ++ t) ∈ req.headers) ∧
    (∃ req, cancelBatchJob (some t) id = .ok req ∧
      ("Authorization", "Bearer " ++ t) ∈ req.headers) ∧
    (∃ req, getTemplates (some t) = .ok req ∧
      ("Authorization", "Bearer " ++ t) ∈ req.headers) ∧
    (∃ req, getDesignPreview (some t) designId = .ok req ∧
      ("Authorization", "Bearer " ++ t) ∈ req.headers) ∧
    (∃ req, exportDesign (some t) designId = .ok req ∧
      ("Authorization", "Bearer " ++ t) ∈ req.headers) := by
  refine ⟨rfl, rfl, rfl, rfl, rfl, rfl, rfl, rfl,
    ?_, ?_, ?_, ?_, ?_, ?_, ?_, ?_⟩ <;>
    exact ⟨_, rfl, List.mem_cons_self _ _⟩

/-- Claim C10: for metadata whose `book_type` is `story` or `coloring`,
the round trip `convertToBookMetadata ∘ convertFromBookMetadata`
preserves `age_group`, `book_type`, `theme` and `page_count`; maps
`title` to the theme, `author` to `AI Generated` and `trim_size` to
`8.5x11`; preserves a non-empty `educational_focus` exactly and sends a
missing or empty one to `undefined`. -/
theorem convert_metadata_roundtrip (m : BookMetadata)
    (hb : m.book_type = "story" ∨ m.book_type = "coloring") :
    (convertToBookMetadata (convertFromBookMetadata m)).age_group =
      m.age_group ∧
    (convertToBookMetadata (convertFromBookMetadata m)).book_type =
      m.book_type ∧
    (convertToBookMetadata (convertFromBookMetadata m)).theme = m.theme ∧
    (convertToBookMetadata (convertFromBookMetadata m)).page_count =
      m.page_count ∧
    (convertToBookMetadata (convertFromBookMetadata m)).title = m.theme ∧
    (convertToBookMetadata (convertFromBookMetadata m)).author =
      "AI Generated" ∧
    (convertToBookMetadata (convertFromBookMetadata m)).trim_size =
      "8.5x11" ∧
    (∀ s : String, s ≠ "" → m.educational_focus = some s →
      (convertToBookMetadata (convertFromBookMetadata m)).educational_focus =
        some s) ∧
    ((m.educational_focus = none ∨ m.educational_focus = some "") →
      (convertToBookMetadata (convertFromBookMetadata m)).educational_focus =
        none) := by
  refine ⟨rfl, ?_, rfl, rfl, rfl, rfl, rfl, ?_, ?_⟩
  · rcases hb with h | h <;>
      simp [convertToBookMetadata, convertFromBookMetadata, h]
  · intro s hs hm
    simp [convertToBookMetadata, convertFromBookMetadata, jsOrElse,
      jsOrUndefined, hm, hs]
  · rintro (h | h) <;>
      simp [convertToBookMetadata, convertFromBookMetadata, jsOrElse,
        jsOrUndefined, h]

/-- Witness for C10 on a concrete story book with a non-empty
educational focus. -/
theorem convert_metadata_roundtrip_witness :
    (convertToBookMetadata (convertFromBookMetadata
      { title := "Old Title", author := "A. Author", age_group := "3-5",
        book_type := "story", theme := "space", trim_size := "8.5x8.5",
        educational_focus := some "astronomy",
        page_count := 24 })).educational_focus = some "astronomy" ∧
    (convertToBookMetadata (convertFromBookMetadata
      { title := "Old Title", author := "A. Author", age_group := "3-5",
        book_type := "story", theme := "space", trim_size := "8.5x8.5",
        educational_focus := some "astronomy",
        page_count := 24 })).book_type = "story" := by
  have h := convert_metadata_roundtrip
    { title := "Old Title", author := "A. Author", age_group := "3-5",
      book_type := "story", theme := "space", trim_size := "8.5x8.5",
      educational_focus := some "astronomy", page_count := 24 }
    (Or.inl rfl)
  exact ⟨h.2.2.2.2.2.2.2.1 "astronomy" (by decide) rfl, h.2.1⟩

/-- Claim C5 counterexample: the source's generation status union is
`idle | preparing | generating | completed | failed`, not
`Pending | Running | Succeeded | Failed | Cancelled`: the concrete value
`idle` carries the literal `"idle"`, which is none of the five claimed
names, and no status value named `Cancelled` (in either case
convention) exists in the union. -/
theorem generation_status_claim_false :
    ¬ (∀ s : GenerationStatus,
        s.toLit ∈ ["Pending", "Running", "Succeeded", "Failed", "Cancelled"]) ∧
    ¬ (∀ s : GenerationStatus,
        s.toLit ∈ ["pending", "running", "succeeded", "failed", "cancelled"]) ∧
    ¬ (∃ s : GenerationStatus, s.toLit = "Cancelled") ∧
    ¬ (∃ s : GenerationStatus, s.toLit = "cancelled") := by
  refine ⟨fun h => absurd (h .idle) (by decide),
    fun h => absurd (h .idle) (by decide), ?_, ?_⟩ <;>
    · rintro ⟨s, hs⟩
      cases s <;> exact absurd hs (by decide)

/-- Claim C5 amended: the status of a generation job takes exactly the
five values `idle`, `preparing`, `generating`, `completed`, `failed`,
and the status of a batch job or of a per-book batch result takes
exactly the four values `pending`, `processing`, `completed`, `failed`;
the frontend declares these unions and no transition structure over
them. -/
theorem status_value_sets :
    (∀ s : GenerationStatus,
      s.toLit ∈ ["idle", "preparing", "generating", "completed", "failed"]) ∧
    (["idle", "preparing", "generating", "completed", "failed"] :
      List String).Nodup ∧
    (∀ b : BatchBookStatus,
      b.toLit ∈ ["pending", "processing", "completed", "failed"]) ∧
    (["pending", "processing", "completed", "failed"] :
      List String).Nodup := by
  refine ⟨fun s => ?_, by decide, fun b => ?_, by decide⟩
  · cases s <;> decide
  · cases b <;> decide

/-- Auxiliary: every stage index at which the pipeline loop invokes the
Stage Executor is at least the job's entry `currentStageIndex`. -/
theorem runPipeline_invoked_ge (exec : Nat → StageResult)
    (cancelAt : Nat → Bool) :
    ∀ (fuel : Nat) (job : BookJob) (i : Nat),
      i ∈ (runPipeline exec cancelAt job fuel).2 →
      job.currentStageIndex ≤ i := by
  intro fuel
  induction fuel with
  | zero => intro job i hi; simp [runPipeline] at hi
  | succ f ih =>
    intro job i hi
    rw [runPipeline] at hi
    by_cases hc : cancelAt job.currentStageIndex
    · rw [if_pos hc] at hi
      simp at hi
    · rw [if_neg hc] at hi
      cases hg : job.stages[job.currentStageIndex]? with
      | none =>
        rw [hg] at hi
        simp at hi
      | some name =>
        rw [hg] at hi
        cases he : exec job.currentStageIndex with
        | ok out =>
          rw [he] at hi
          simp only [List.mem_cons] at hi
          rcases hi with rfl | hi
          · exact Nat.le_refl _
          · have h2 := ih (advanceJob job name out) i hi
            simp only [advanceJob] at h2
            omega
        | err c =>
          rw [he] at hi
          simp at hi
          omega

/-- Auxiliary: the pipeline loop only appends to `stageOutputs`; the
entry `stageOutputs` always stays as an unmodified initial segment. -/
theorem runPipeline_outputs_extend (exec : Nat → StageResult)
    (cancelAt : Nat → Bool) :
    ∀ (fuel : Nat) (job : BookJob),
      ∃ tail, (runPipeline exec cancelAt job fuel).1.stageOutputs =
        job.stageOutputs ++ tail := by
  intro fuel
  induction fuel with
  | zero => intro job; exact ⟨[], by simp [runPipeline]⟩
  | succ f ih =>
    intro job
    rw [runPipeline]
    by_cases hc : cancelAt job.currentStageIndex
    · rw [if_pos hc]
      exact ⟨[], by simp⟩
    · rw [if_neg hc]
      cases hg : job.stages[job.currentStageIndex]? with
      | none => exact ⟨[], by simp⟩
      | some name =>
        cases he : exec job.currentStageIndex with
        | ok out =>
          obtain ⟨tail, ht⟩ := ih (advanceJob job name out)
          refine ⟨(name, out) :: tail, ?_⟩
          show (runPipeline exec cancelAt (advanceJob job name out) f).1.stageOutputs =
            job.stageOutputs ++ (name, out) :: tail
          rw [ht]
          simp [advanceJob]
        | err c => exact ⟨[], by simp⟩

/-- Auxiliary: when the first cancellation observation on the path from
`currentStageIndex` happens at stage index `j` (every earlier stage
executing successfully), the loop stops there with status `Cancelled`
and its pointer at `j`. -/
theorem runPipeline_cancel_reached (exec : Nat → StageResult)
    (cancelAt : Nat → Bool) (j : Nat) :
    ∀ (fuel : Nat) (job : BookJob),
      job.currentStageIndex ≤ j →
      j < job.currentStageIndex + fuel →
      j ≤ job.stages.length →
      cancelAt j = true →
      (∀ i, job.currentStageIndex ≤ i → i < j → cancelAt i = false) →
      (∀ i, job.currentStageIndex ≤ i → i < j → ∃ out, exec i = .ok out) →
      (runPipeline exec cancelAt job fuel).1.status = .Cancelled ∧
        (runPipeline exec cancelAt job fuel).1.currentStageIndex = j := by
  intro fuel
  induction fuel with
  | zero => intro job h1 h2 _ _ _ _; omega
  | succ f ih =>
    intro job h1 h2 hlen hc hnc hok
    rw [runPipeline]
    by_cases hcs : job.currentStageIndex = j
    · have hct : cancelAt job.currentStageIndex = true := by
        rw [hcs]; exact hc
      rw [if_pos hct]
      exact ⟨rfl, hcs⟩
    · have hlt : job.currentStageIndex < j := by omega
      have hcf : cancelAt job.currentStageIndex = false :=
        hnc _ (Nat.le_refl _) hlt
      rw [if_neg (by simp [hcf])]
      have hgl : job.currentStageIndex < job.stages.length := by omega
      rw [List.getElem?_eq_getElem hgl]
      obtain ⟨out, hout⟩ := hok _ (Nat.le_refl _) hlt
      rw [hout]
      exact ih (advanceJob job (job.stages[job.currentStageIndex]) out)
        (by simp only [advanceJob]; omega)
        (by simp only [advanceJob]; omega)
        (by simp only [advanceJob]; omega)
        hc
        (by intro i hi1 hi2
            simp only [advanceJob] at hi1
            exact hnc i (by omega) hi2)
        (by intro i hi1 hi2
            simp only [advanceJob] at hi1
            exact hok i (by omega) hi2)

/-- Auxiliary: when the Stage Executor fails at stage index `j` with
cause `c` (every earlier stage executing successfully and no
cancellation observed up to `j`), the loop stops with status `Failed`
and `lastError` holding exactly `c`. -/
theorem runPipeline_fail_reached (exec : Nat → StageResult)
    (cancelAt : Nat → Bool) (j : Nat) (c : String) :
    ∀ (fuel : Nat) (job : BookJob),
      job.currentStageIndex ≤ j →
      j < job.currentStageIndex + fuel →
      j < job.stages.length →
      exec j = .err c →
      (∀ i, job.currentStageIndex ≤ i → i ≤ j → cancelAt i = false) →
      (∀ i, job.currentStageIndex ≤ i → i < j → ∃ out, exec i = .ok out) →
      (runPipeline exec cancelAt job fuel).1.status = .Failed ∧
        (runPipeline exec cancelAt job fuel).1.lastError = some c := by
  intro fuel
  induction fuel with
  | zero => intro job h1 h2 _ _ _ _; omega
  | succ f ih =>
    intro job h1 h2 hlen herr hnc hok
    rw [runPipeline]
    have hcf : cancelAt job.currentStageIndex = false :=
      hnc _ (Nat.le_refl _) h1
    rw [if_neg (by simp [hcf])]
    have hgl : job.currentStageIndex < job.stages.length := by omega
    rw [List.getElem?_eq_getElem hgl]
    by_cases hcs : job.currentStageIndex = j
    · have herr2 : exec job.currentStageIndex = .err c := by
        rw [hcs]; exact herr
      rw [herr2]
      exact ⟨rfl, rfl⟩
    · have hlt : job.currentStageIndex < j := by omega
      obtain ⟨out, hout⟩ := hok _ (Nat.le_refl _) hlt
      rw [hout]
      exact ih (advanceJob job (job.stages[job.currentStageIndex]) out)
        (by simp only [advanceJob]; omega)
        (by simp only [advanceJob]; omega)
        (by simp only [advanceJob]; omega)
        herr
        (by intro i hi1 hi2
            simp only [advanceJob] at hi1
            exact hnc i (by omega) hi2)
        (by intro i hi1 hi2
            simp only [advanceJob] at hi1
            exact hok i (by omega) hi2)

/-- Auxiliary: case characterization of `aggregateStatus`, matching the
spec's three clauses. -/
theorem aggregateStatus_spec (sts : List JobStatus) :
    (aggregateStatus sts = .Completed ↔
      (∀ s ∈ sts, isTerminal s = true) ∧ ∀ s ∈ sts, s = .Succeeded) ∧
    (aggregateStatus sts = .PartiallyFailed ↔
      (∀ s ∈ sts, isTerminal s = true) ∧ ∃ s ∈ sts, s = .Failed) ∧
    (aggregateStatus sts = .Running ↔
      ¬((∀ s ∈ sts, isTerminal s = true) ∧ ∀ s ∈ sts, s = .Succeeded) ∧
      ¬((∀ s ∈ sts, isTerminal s = true) ∧ ∃ s ∈ sts, s = .Failed)) := by
  have hterm : sts.all isTerminal = true ↔ ∀ s ∈ sts, isTerminal s = true :=
    List.all_eq_true
  have hsucc : sts.all (· == JobStatus.Succeeded) = true ↔
      ∀ s ∈ sts, s = .Succeeded := by
    simp [List.all_eq_true]
  have hfail : sts.any (· == JobStatus.Failed) = true ↔
      ∃ s ∈ sts, s = .Failed := by
    simp [List.any_eq_true]
  unfold aggregateStatus
  by_cases h1 : sts.all isTerminal = true
  · by_cases h2 : sts.all (· == JobStatus.Succeeded) = true
    · rw [if_pos h1, if_pos h2]
      refine ⟨⟨fun _ => ⟨hterm.mp h1, hsucc.mp h2⟩, fun _ => rfl⟩, ?_, ?_⟩
      · constructor
        · intro h; exact absurd h (by decide)
        · rintro ⟨-, s, hs, rfl⟩
          have hss := hsucc.mp h2 _ hs
          cases hss
      · constructor
        · intro h; exact absurd h (by decide)
        · rintro ⟨hn, -⟩
          exact absurd ⟨hterm.mp h1, hsucc.mp h2⟩ hn
    · by_cases h3 : sts.any (· == JobStatus.Failed) = true
      · rw [if_pos h1, if_neg h2, if_pos h3]
        refine ⟨?_, ⟨fun _ => ⟨hterm.mp h1, hfail.mp h3⟩, fun _ => rfl⟩, ?_⟩
        · constructor
          · intro h; exact absurd h (by decide)
          · rintro ⟨-, hsc⟩
            exact absurd (hsucc.mpr hsc) h2
        · constructor
          · intro h; exact absurd h (by decide)
          · rintro ⟨-, hn⟩
            exact absurd ⟨hterm.mp h1, hfail.mp h3⟩ hn
      · rw [if_pos h1, if_neg h2, if_neg h3]
        refine ⟨?_, ?_, ?_⟩
        · constructor
          · intro h; exact absurd h (by decide)
          · rintro ⟨-, hsc⟩
            exact absurd (hsucc.mpr hsc) h2
        · constructor
          · intro h; exact absurd h (by decide)
          · rintro ⟨-, hf⟩
            exact absurd (hfail.mpr hf) h3
        · refine ⟨fun _ => ⟨?_, ?_⟩, fun _ => rfl⟩
          · rintro ⟨-, hsc⟩
            exact absurd (hsucc.mpr hsc) h2
          · rintro ⟨-, hf⟩
            exact absurd (hfail.mpr hf) h3
  · rw [if_neg h1]
    refine ⟨?_, ?_, ?_⟩
    · constructor
      · intro h; exact absurd h (by decide)
      · rintro ⟨ht, -⟩
        exact absurd (hterm.mpr ht) h1
    · constructor
      · intro h; exact absurd h (by decide)
      · rintro ⟨ht, -⟩
        exact absurd (hterm.mpr ht) h1
    · refine ⟨fun _ => ⟨?_, ?_⟩, fun _ => rfl⟩
      · rintro ⟨ht, -⟩
        exact absurd (hterm.mpr ht) h1
      · rintro ⟨ht, -⟩
        exact absurd (hterm.mpr ht) h1

/-- Claim C1: (spec-modelled) the aggregate status of a batch is a pure
function of the constituent book jobs' statuses, recomputed by
`GetBatchStatus` on every read and never stored: it equals `Completed`
iff every constituent is terminal and all succeeded, `PartiallyFailed`
iff every constituent is terminal and at least one failed, and
`Running` otherwise; any two batch records with the same constituent
statuses yield the same answer. -/
theorem batch_aggregate_status_derived (batch : BatchJob) :
    ((GetBatchStatus batch).1 = .Completed ↔
      (∀ s ∈ batch.bookJobs.map BookJob.status, isTerminal s = true) ∧
        ∀ s ∈ batch.bookJobs.map BookJob.status, s = .Succeeded) ∧
    ((GetBatchStatus batch).1 = .PartiallyFailed ↔
      (∀ s ∈ batch.bookJobs.map BookJob.status, isTerminal s = true) ∧
        ∃ s ∈ batch.bookJobs.map BookJob.status, s = .Failed) ∧
    ((GetBatchStatus batch).1 = .Running ↔
      ¬((∀ s ∈ batch.bookJobs.map BookJob.status, isTerminal s = true) ∧
          ∀ s ∈ batch.bookJobs.map BookJob.status, s = .Succeeded) ∧
      ¬((∀ s ∈ batch.bookJobs.map BookJob.status, isTerminal s = true) ∧
          ∃ s ∈ batch.bookJobs.map BookJob.status, s = .Failed)) ∧
    ∀ b2 : BatchJob,
      b2.bookJobs.map BookJob.status = batch.bookJobs.map BookJob.status →
        GetBatchStatus b2 = GetBatchStatus batch := by
  obtain ⟨hC, hP, hR⟩ :=
    aggregateStatus_spec (batch.bookJobs.map BookJob.status)
  exact ⟨hC, hP, hR, fun b2 h => by simp [GetBatchStatus, h]⟩

/-- Witness for C1: a batch with one succeeded and one failed book is
`PartiallyFailed`. -/
theorem batch_aggregate_status_derived_witness :
    (GetBatchStatus sampleBatch).1 = .PartiallyFailed :=
  ((batch_aggregate_status_derived sampleBatch).2.1).mpr
    ⟨by decide, by decide⟩

/-- Claim C2: (spec-modelled) resuming a `Failed` book job re-enters
the pipeline at `currentStageIndex`; for each stage whose name is
already present in `stageOutputs` the Stage Executor is invoked zero
times during the resumed run, and the prior stage outputs are reused
unchanged — the resumed run only appends to them. -/
theorem resume_skips_completed_stages (exec : Nat → StageResult)
    (cancelAt : Nat → Bool) (job : BookJob)
    (hfail : job.status = .Failed) (hwf : WellFormed job) :
    (∀ i name, job.stages[i]? = some name →
      name ∈ job.stageOutputs.map Prod.fst →
      i ∉ (resumeJob exec cancelAt job).2) ∧
    ∃ tail, (resumeJob exec cancelAt job).1.stageOutputs =
      job.stageOutputs ++ tail := by
  obtain ⟨hmap, hnd⟩ := hwf
  constructor
  · intro i name hget hmem hin
    have hge : job.currentStageIndex ≤ i := by
      have h2 := runPipeline_invoked_ge exec cancelAt
        (job.stages.length + 1 - job.currentStageIndex)
        { job with status := .Running } i hin
      simpa using h2
    rw [hmap] at hmem
    obtain ⟨k, hk⟩ := List.mem_iff_getElem?.mp hmem
    rw [List.getElem?_take] at hk
    by_cases hkc : k < job.currentStageIndex
    · rw [if_pos hkc] at hk
      have hil : i < job.stages.length := (List.getElem?_eq_some.mp hget).1
      have hik : i = k := List.getElem?_inj hil hnd (by rw [hget, hk])
      omega
    · rw [if_neg hkc] at hk
      exact absurd hk (by simp)
  · have h2 := runPipeline_outputs_extend exec cancelAt
      (job.stages.length + 1 - job.currentStageIndex)
      { job with status := .Running }
    simpa [resumeJob, runJob] using h2

/-- Witness for C2: resuming the concrete failed job never re-invokes
the executor for the already-completed stage `images`, and keeps the
stored outputs as a segment. -/
theorem resume_skips_completed_stages_witness :
    failedJob.status = .Failed ∧ WellFormed failedJob ∧
    1 ∉ (resumeJob (fun _ => .ok "out") (fun _ => false) failedJob).2 ∧
    ∃ tail,
      (resumeJob (fun _ => .ok "out") (fun _ => false) failedJob).1.stageOutputs =
        failedJob.stageOutputs ++ tail := by
  have h := resume_skips_completed_stages (fun _ => .ok "out")
    (fun _ => false) failedJob rfl ⟨by decide, by decide⟩
  exact ⟨rfl, ⟨by decide, by decide⟩,
    h.1 1 "images" (by decide) (by decide), h.2⟩

/-- Claim C6: (spec-modelled) cancelling a book job mid-run — the
cancellation is observed at the cooperative check before stage `j`,
after the in-flight stage finished — leaves every `stageOutputs` entry
already written in place (the map is only appended to, never
truncated), and the job's terminal status is `Cancelled`, not
`Failed`. -/
theorem cancel_preserves_outputs (exec : Nat → StageResult)
    (cancelAt : Nat → Bool) (job : BookJob) (j : Nat)
    (hcsi : job.currentStageIndex ≤ j) (hlen : j ≤ job.stages.length)
    (hc : cancelAt j = true)
    (hnc : ∀ i, job.currentStageIndex ≤ i → i < j → cancelAt i = false)
    (hok : ∀ i, job.currentStageIndex ≤ i → i < j → ∃ out, exec i = .ok out) :
    (runJob exec cancelAt job).1.status = .Cancelled ∧
    (runJob exec cancelAt job).1.status ≠ .Failed ∧
    ∃ tail, (runJob exec cancelAt job).1.stageOutputs =
      job.stageOutputs ++ tail := by
  simp only [runJob]
  have hres := runPipeline_cancel_reached exec cancelAt j
    (job.stages.length + 1 - job.currentStageIndex)
    { job with status := .Running }
    (by simpa using hcsi)
    (by simp only []; omega)
    (by simpa using hlen)
    hc
    (by intro i hi1 hi2; exact hnc i (by simpa using hi1) hi2)
    (by intro i hi1 hi2; exact hok i (by simpa using hi1) hi2)
  refine ⟨hres.1, ?_, ?_⟩
  · rw [hres.1]
    decide
  · have h2 := runPipeline_outputs_extend exec cancelAt
      (job.stages.length + 1 - job.currentStageIndex)
      { job with status := .Running }
    simpa using h2

/-- Witness for C6: the four-stage sample job cancelled before its
third stage ends `Cancelled`, never `Failed`, with outputs intact. -/
theorem cancel_preserves_outputs_witness :
    (runJob (fun _ => .ok "out") (fun i => i == 2) sampleJob).1.status =
      .Cancelled ∧
    (runJob (fun _ => .ok "out") (fun i => i == 2) sampleJob).1.status ≠
      .Failed ∧
    ∃ tail,
      (runJob (fun _ => .ok "out") (fun i => i == 2) sampleJob).1.stageOutputs =
        sampleJob.stageOutputs ++ tail :=
  cancel_preserves_outputs (fun _ => .ok "out") (fun i => i == 2) sampleJob 2
    (by decide) (by decide) (by decide)
    (by intro i hi1 hi2
        simp only [beq_eq_false_iff_ne]
        omega)
    (fun i hi1 hi2 => ⟨"out", rfl⟩)

/-- Claim C7: (spec-modelled) when the pipeline terminates with a
failure, polling `GetJobStatus` reports the terminal `Failed` status
together with exactly the last underlying error cause string, which is
non-empty and never a generic placeholder. -/
theorem failed_job_reports_precise_cause (exec : Nat → StageResult)
    (cancelAt : Nat → Bool) (job : BookJob) (j : Nat) (c : String)
    (hcsi : job.currentStageIndex ≤ j) (hlen : j < job.stages.length)
    (herr : exec j = .err c) (hcne : c ≠ "")
    (hnc : ∀ i, job.currentStageIndex ≤ i → i ≤ j → cancelAt i = false)
    (hok : ∀ i, job.currentStageIndex ≤ i → i < j → ∃ out, exec i = .ok out) :
    (GetJobStatus (runJob exec cancelAt job).1).status = .Failed ∧
    (GetJobStatus (runJob exec cancelAt job).1).lastError = some c ∧
    c ≠ "" := by
  simp only [runJob, GetJobStatus]
  have hres := runPipeline_fail_reached exec cancelAt j c
    (job.stages.length + 1 - job.currentStageIndex)
    { job with status := .Running }
    (by simpa using hcsi)
    (by simp only []; omega)
    (by simpa using hlen)
    herr
    (by intro i hi1 hi2; exact hnc i (by simpa using hi1) hi2)
    (by intro i hi1 hi2; exact hok i (by simpa using hi1) hi2)
  exact ⟨hres.1, hres.2, hcne⟩

/-- Witness for C7: a job failing at its second stage with a
content-policy cause reports exactly that cause. -/
theorem failed_job_reports_precise_cause_witness :
    (GetJobStatus (runJob
        (fun i => if i == 1 then .err "content policy rejection" else .ok "out")
        (fun _ => false) sampleJob).1).status = .Failed ∧
    (GetJobStatus (runJob
        (fun i => if i == 1 then .err "content policy rejection" else .ok "out")
        (fun _ => false) sampleJob).1).lastError =
      some "content policy rejection" ∧
    ("content policy rejection" : String) ≠ "" :=
  failed_job_reports_precise_cause
    (fun i => if i == 1 then .err "content policy rejection" else .ok "out")
    (fun _ => false) sampleJob 1 "content policy rejection"
    (by decide) (by decide) (by decide) (by decide)
    (fun i hi1 hi2 => rfl)
    (by intro i hi1 hi2
        have hz : i = 0 := by omega
        subst hz
        exact ⟨"out", rfl⟩)

end KidsBook
